import Mathlib

-- Verification development for the cutting engine of pymadcad (src/madcad/cut.py).
-- The geometric scalar type is ℚ: the Python code computes with floats, which we model by
-- exact real arithmetic.  Comparisons of a Euclidean length against a nonnegative tolerance
-- are rendered by the equivalent comparison of the squared length against the squared
-- tolerance, so that every definition stays computable (no square roots are needed).

namespace Madcad

/-- Exact model of the 3-component vector type (vec3 / dvec3) of the math utilities. -/
structure Vec3 where
  x : ℚ
  y : ℚ
  z : ℚ
deriving DecidableEq, Repr

instance : Add Vec3 := ⟨fun u v => ⟨u.x + v.x, u.y + v.y, u.z + v.z⟩⟩
instance : Sub Vec3 := ⟨fun u v => ⟨u.x - v.x, u.y - v.y, u.z - v.z⟩⟩
instance : Neg Vec3 := ⟨fun v => ⟨-v.x, -v.y, -v.z⟩⟩
instance : SMul ℚ Vec3 := ⟨fun a v => ⟨a * v.x, a * v.y, a * v.z⟩⟩

theorem vadd_def (u v : Vec3) : u + v = ⟨u.x + v.x, u.y + v.y, u.z + v.z⟩ := rfl

theorem vsub_def (u v : Vec3) : u - v = ⟨u.x - v.x, u.y - v.y, u.z - v.z⟩ := rfl

theorem vneg_def (v : Vec3) : -v = ⟨-v.x, -v.y, -v.z⟩ := rfl

theorem vsmul_def (a : ℚ) (v : Vec3) : a • v = ⟨a * v.x, a * v.y, a * v.z⟩ := rfl

/-- The zero vector, used as the out-of-range default for point lookups. -/
def vzero : Vec3 := ⟨0, 0, 0⟩

/-- Dot product of the math utilities. -/
def dot (u v : Vec3) : ℚ := u.x * v.x + u.y * v.y + u.z * v.z

/-- Cross product of the math utilities. -/
def cross (u v : Vec3) : Vec3 :=
  ⟨u.y * v.z - u.z * v.y, u.z * v.x - u.x * v.z, u.x * v.y - u.y * v.x⟩

/-- Squared Euclidean norm; `length(v) ≤ t` for `t ≥ 0` is rendered as `lengthSq v ≤ t^2`. -/
def lengthSq (v : Vec3) : ℚ := dot v v

/-- Squared distance; `distance(u,v) > t` for `t ≥ 0` is rendered as `distSq u v > t^2`. -/
def distSq (u v : Vec3) : ℚ := lengthSq (u - v)

/-- Modelled from the spec: NUMPREC, the numeric precision constant imported by cut.py from
the math utilities module (which is not part of src/); a tiny positive epsilon. -/
def NUMPREC : ℚ := 1 / 10 ^ 13

-- ---------------------------------------------------------------------------
-- Python dict, modelled as an insertion-ordered association list.

/-- Python `d[k]` lookup (`d.get(k)`): value of the entry with key `k`, if present. -/
def dget {κ ν : Type} [BEq κ] (d : List (κ × ν)) (k : κ) : Option ν :=
  (d.find? (fun kv => kv.1 == k)).map (fun kv => kv.2)

/-- Python `d[k] = v`: update the entry in place if the key is present, else append. -/
def dset {κ ν : Type} [BEq κ] (d : List (κ × ν)) (k : κ) (v : ν) : List (κ × ν) :=
  if d.any (fun kv => kv.1 == k) then
    d.map (fun kv => if kv.1 == k then (k, v) else kv)
  else
    d ++ [(k, v)]

/-- Python `if k in d: del d[k]`: drop the entry with key `k`, no-op when absent. -/
def ddel {κ ν : Type} [BEq κ] (d : List (κ × ν)) (k : κ) : List (κ × ν) :=
  d.filter (fun kv => !(kv.1 == k))

/-- Python `d.update(e)`: assign every entry of `e` into `d`, in order. -/
def dupdate {κ ν : Type} [BEq κ] (d e : List (κ × ν)) : List (κ × ν) :=
  e.foldl (fun a kv => dset a kv.1 kv.2) d

-- ---------------------------------------------------------------------------
-- Mesh store.  mesh.py is not part of src/; the fields and the operations used by cut.py
-- are modelled from the spec's Mesh Store interface.

/-- A triangular face: an ordered triple of point indices. -/
abbrev Face := ℕ × ℕ × ℕ

/-- A directed edge: an ordered pair of point indices. -/
abbrev Edge := ℕ × ℕ

/-- Modelled from the spec: the Mesh Store owns points, triangular faces, per-face group ids
(tracks) and group labels, in dense index-stable sequences. -/
structure Mesh where
  points : List Vec3
  faces : List Face
  tracks : List ℕ
  groups : List String
deriving DecidableEq

/-- Python tuple indexing `f[j]` on a 3-tuple for `-3 ≤ j < 3` (negative indices wrap). -/
def fget (f : Face) (j : ℤ) : ℕ :=
  match (j % 3).toNat with
  | 0 => f.1
  | 1 => f.2.1
  | _ => f.2.2

/-- The three directed edges `(f[0],f[1]), (f[1],f[2]), (f[2],f[0])` of a face. -/
def faceEdges (f : Face) : List Edge := [(f.1, f.2.1), (f.2.1, f.2.2), (f.2.2, f.1)]

/-- Modelled from the spec: the Mesh Store "face points" query: the three corner points of
face `fi`. -/
def facepoints (m : Mesh) (fi : ℕ) : Vec3 × Vec3 × Vec3 :=
  let f := m.faces.getD fi (0, 0, 0)
  (m.points.getD f.1 vzero, m.points.getD f.2.1 vzero, m.points.getD f.2.2 vzero)

/-- Modelled from the spec: the Mesh Store "locate-or-create point within tolerance"
operation (`usepointat`): return the index of an existing point within the tolerance of `p`,
else append `p` and return its new index. -/
def usepointat (m : Mesh) (p : Vec3) (prec : ℚ) : ℕ × Mesh :=
  match m.points.findIdx? (fun q => decide (distSq q p ≤ prec ^ 2)) with
  | some i => (i, m)
  | none => (m.points.length, { m with points := m.points ++ [p] })

/-- The connectivity map: directed edge → owning face index (a Python dict in the source). -/
abbrev Conn := List (Edge × ℕ)

/-- registerface (cut.py lines 595–598): insert the three directed edges of face `fi` into
the connectivity map. -/
def registerface (m : Mesh) (conn : Conn) (fi : ℕ) : Conn :=
  (faceEdges (m.faces.getD fi (0, 0, 0))).foldl (fun c e => dset c e fi) conn

/-- unregisterface (cut.py lines 600–603): remove the three directed edges of face `fi`
from the connectivity map, skipping absent ones. -/
def unregisterface (m : Mesh) (conn : Conn) (fi : ℕ) : Conn :=
  (faceEdges (m.faces.getD fi (0, 0, 0))).foldl (fun c e => ddel c e) conn

-- ---------------------------------------------------------------------------
-- Pure geometric helpers of cut.py.

/-- Solve the linear system whose matrix has columns `u v w`, i.e. the source's
`inverse(dmat3(u,v,w)) * b`, by Cramer's rule. -/
def solveCols (u v w b : Vec3) : Vec3 :=
  let det := dot u (cross v w)
  ⟨dot b (cross v w) / det, dot u (cross b w) / det, dot u (cross v b) / det⟩

/-- Solve the linear system whose matrix has rows `a b c` and right-hand side `(r1,r2,r3)`,
i.e. the source's `inverse(transpose(dmat3(a,b,c))) * dvec3(r1,r2,r3)`, by Cramer's rule. -/
def solveRows (a b c : Vec3) (r1 r2 r3 : ℚ) : Vec3 :=
  let det := dot a (cross b c)
  (1 / det) • (r1 • cross b c + r2 • cross c a + r3 • cross a b)

/-- intersection_axis_face (cut.py lines 623–629): barycentric coordinates of the axis's
crossing with the face's plane; the crossing point when strictly inside the triangle. -/
def intersection_axis_face (axis : Vec3 × Vec3) (face : Vec3 × Vec3 × Vec3) : Option Vec3 :=
  let coords := solveCols (face.2.1 - face.1) (face.2.2 - face.1) axis.2 (axis.1 - face.1)
  if 0 < coords.x ∧ 0 < coords.y ∧ coords.x + coords.y < 1 then
    some (face.1 + coords.x • (face.2.1 - face.1) + coords.y • (face.2.2 - face.1))
  else
    none

/-- intersection_edge_plane (cut.py lines 612–621): intersection of a segment with a plane,
snapping to an endpoint within `prec`.  In the source the final expression is
`edge[0] + dist * normalize(edgedir) / dot(normalize(edgedir), axis[1])`; the normalization
cancels exactly, so it is written here with the unnormalized direction.  The parallelism
guard `abs(dot(edgedir, axis[1])) <= NUMPREC` uses the unnormalized direction in the source
as well. -/
def intersection_edge_plane (axis : Vec3 × Vec3) (edge : Vec3 × Vec3) (prec : ℚ) :
    Option Vec3 :=
  let dist := dot (axis.1 - edge.1) axis.2
  let compl := dot (axis.1 - edge.2) axis.2
  if |dist| ≤ prec then some edge.1
  else if |compl| ≤ prec then some edge.2
  else if dist * compl > 0 then none
  else
    let edgedir := edge.2 - edge.1
    if |dot edgedir axis.2| ≤ NUMPREC then none
    else some (edge.1 + (dist / dot edgedir axis.2) • edgedir)

/-- faceheight (cut.py lines 651–654), squared: the three heights are
`length(noproject(f[i-2]-f[i], normalize(f[i-1]-f[i])))`; with the normalization expanded,
`noproject(v, normalize u) = v - (dot(v,u)/dot(u,u)) • u`, and the minimum is taken of the
squared heights. -/
def faceheightSq (fp : Vec3 × Vec3 × Vec3) : ℚ :=
  let noprojN := fun (v u : Vec3) => v - (dot v u / dot u u) • u
  min (min (lengthSq (noprojN (fp.2.1 - fp.1) (fp.2.2 - fp.1)))
           (lengthSq (noprojN (fp.2.2 - fp.2.1) (fp.1 - fp.2.1))))
      (lengthSq (noprojN (fp.1 - fp.2.2) (fp.2.1 - fp.2.2)))

/-- The test `faceheight(mesh, fi) <= prec` of the source, in squared form. -/
def faceheight_le (m : Mesh) (fi : ℕ) (prec : ℚ) : Bool :=
  decide (faceheightSq (facepoints m fi) ≤ prec ^ 2)

-- ---------------------------------------------------------------------------
-- Basic facts about the dict model.

theorem find?_map_dset_aux {κ ν : Type} [BEq κ] [LawfulBEq κ] (t : List (κ × ν))
    (k k' : κ) (v : ν) (hne : k' ≠ k) :
    (t.map (fun kv => if kv.1 == k then (k, v) else kv)).find? (fun kv => kv.1 == k')
      = t.find? (fun kv => kv.1 == k') := by
  induction t with
  | nil => rfl
  | cons kv r ih =>
    by_cases h : (kv.1 == k) = true
    · have hk : kv.1 = k := by simpa using h
      have h1 : (k == k') = false := by simp [Ne.symm hne]
      have h2 : (kv.1 == k') = false := by simp [hk, Ne.symm hne]
      simp only [List.map_cons, if_pos h, List.find?, h1, h2, ih]
    · have h' : (kv.1 == k) = false := by simpa using h
      by_cases h3 : (kv.1 == k') = true
      · simp only [List.map_cons, if_neg h, List.find?, h3]
      · have h3' : (kv.1 == k') = false := by simpa using h3
        simp only [List.map_cons, if_neg h, List.find?, h3', ih]

theorem find?_any_map_dset {κ ν : Type} [BEq κ] [LawfulBEq κ] (t : List (κ × ν))
    (k : κ) (v : ν) (hany : t.any (fun kv => kv.1 == k) = true) :
    (t.map (fun kv => if kv.1 == k then (k, v) else kv)).find? (fun kv => kv.1 == k)
      = some (k, v) := by
  induction t with
  | nil => simp at hany
  | cons kv r ih =>
    by_cases h : (kv.1 == k) = true
    · simp only [List.map_cons, if_pos h, List.find?, beq_self_eq_true]
    · have h' : (kv.1 == k) = false := by simpa using h
      simp only [List.any_cons, h', Bool.false_or] at hany
      simp [List.map_cons, if_neg h, List.find?, h', ih hany]

theorem find?_append_none_key {κ ν : Type} [BEq κ] [LawfulBEq κ] (d : List (κ × ν))
    (k k' : κ) (v : ν) (hne : k' ≠ k) :
    (d ++ [(k, v)]).find? (fun kv => kv.1 == k') = d.find? (fun kv => kv.1 == k') := by
  induction d with
  | nil =>
    have h1 : (k == k') = false := by simp [Ne.symm hne]
    simp [List.find?, h1]
  | cons kv r ih =>
    by_cases h3 : (kv.1 == k') = true
    · simp only [List.cons_append, List.find?, h3]
    · have h3' : (kv.1 == k') = false := by simpa using h3
      simp only [List.cons_append, List.find?, h3']
      exact ih

theorem dget_dset_self {κ ν : Type} [BEq κ] [LawfulBEq κ] (d : List (κ × ν)) (k : κ) (v : ν) :
    dget (dset d k v) k = some v := by
  unfold dget dset
  by_cases hany : d.any (fun kv => kv.1 == k)
  · rw [if_pos hany, find?_any_map_dset d k v hany]; rfl
  · rw [if_neg hany]
    induction d with
    | nil => simp [List.find?]
    | cons kv r ih =>
      simp only [List.any_cons, Bool.or_eq_true, not_or] at hany
      have h' : (kv.1 == k) = false := by simpa using hany.1
      simp only [List.cons_append, List.find?, h']
      exact ih (by simpa using hany.2)

theorem dget_dset_ne {κ ν : Type} [BEq κ] [LawfulBEq κ] (d : List (κ × ν)) (k k' : κ) (v : ν)
    (hne : k' ≠ k) : dget (dset d k v) k' = dget d k' := by
  unfold dget dset
  by_cases hany : d.any (fun kv => kv.1 == k)
  · rw [if_pos hany, find?_map_dset_aux d k k' v hne]
  · rw [if_neg hany, find?_append_none_key d k k' v hne]

theorem dget_ddel_self {κ ν : Type} [BEq κ] [LawfulBEq κ] (d : List (κ × ν)) (k : κ) :
    dget (ddel d k) k = none := by
  unfold dget ddel
  have : (d.filter (fun kv => !(kv.1 == k))).find? (fun kv => kv.1 == k) = none := by
    rw [List.find?_eq_none]
    intro kv hkv
    have := List.of_mem_filter hkv
    simpa using this
  rw [this]; rfl

theorem dget_ddel_ne {κ ν : Type} [BEq κ] [LawfulBEq κ] (d : List (κ × ν)) (k k' : κ)
    (hne : k' ≠ k) : dget (ddel d k) k' = dget d k' := by
  unfold dget ddel
  induction d with
  | nil => rfl
  | cons kv r ih =>
    by_cases h : (kv.1 == k) = true
    · have hk : kv.1 = k := by simpa using h
      have h2 : (kv.1 == k') = false := by simp [hk, Ne.symm hne]
      rw [List.filter_cons_of_neg (by simp [h])]
      simp only [List.find?, h2] at ih ⊢
      exact ih
    · by_cases h3 : (kv.1 == k') = true
      · rw [List.filter_cons_of_pos (by simp [h])]
        simp only [List.find?, h3]
      · have h3' : (kv.1 == k') = false := by simpa using h3
        rw [List.filter_cons_of_pos (by simp [h])]
        simp only [List.find?, h3']
        exact ih

theorem dget_registerface (m : Mesh) (conn : Conn) (fi : ℕ) (e : Edge) :
    dget (registerface m conn fi) e
      = if e ∈ faceEdges (m.faces.getD fi (0, 0, 0)) then some fi else dget conn e := by
  set f := m.faces.getD fi (0, 0, 0) with hf
  show dget (dset (dset (dset conn (f.1, f.2.1) fi) (f.2.1, f.2.2) fi) (f.2.2, f.1) fi) e = _
  by_cases h3 : e = (f.2.2, f.1)
  · rw [h3, dget_dset_self, if_pos (by simp [faceEdges])]
  · rw [dget_dset_ne _ _ _ _ h3]
    by_cases h2 : e = (f.2.1, f.2.2)
    · rw [h2, dget_dset_self, if_pos (by simp [faceEdges])]
    · rw [dget_dset_ne _ _ _ _ h2]
      by_cases h1 : e = (f.1, f.2.1)
      · rw [h1, dget_dset_self, if_pos (by simp [faceEdges])]
      · rw [dget_dset_ne _ _ _ _ h1, if_neg (by simp [faceEdges, h1, h2, h3])]

theorem dget_unregisterface (m : Mesh) (conn : Conn) (fi : ℕ) (e : Edge) :
    dget (unregisterface m conn fi) e
      = if e ∈ faceEdges (m.faces.getD fi (0, 0, 0)) then none else dget conn e := by
  set f := m.faces.getD fi (0, 0, 0) with hf
  show dget (ddel (ddel (ddel conn (f.1, f.2.1)) (f.2.1, f.2.2)) (f.2.2, f.1)) e = _
  by_cases h3 : e = (f.2.2, f.1)
  · rw [h3, dget_ddel_self, if_pos (by simp [faceEdges])]
  · rw [dget_ddel_ne _ _ _ h3]
    by_cases h2 : e = (f.2.1, f.2.2)
    · rw [h2, dget_ddel_self, if_pos (by simp [faceEdges])]
    · rw [dget_ddel_ne _ _ _ h2]
      by_cases h1 : e = (f.1, f.2.1)
      · rw [h1, dget_ddel_self, if_pos (by simp [faceEdges])]
      · rw [dget_ddel_ne _ _ _ h1, if_neg (by simp [faceEdges, h1, h2, h3])]

/-- C10: for every connectivity map `conn` and face index `fi` of the mesh, calling
`unregisterface` then `registerface` on `fi` leaves `conn` mapping each of the face's three
directed edges to `fi`; and when `conn` already mapped those three edges to `fi` beforehand,
the pair of calls leaves the mapping of every edge unchanged. -/
theorem register_unregister_roundtrip (m : Mesh) (conn : Conn) (fi : ℕ)
    (hfi : fi < m.faces.length) :
    (∀ e ∈ faceEdges (m.faces.getD fi (0, 0, 0)),
        dget (registerface m (unregisterface m conn fi) fi) e = some fi)
    ∧ ((∀ e ∈ faceEdges (m.faces.getD fi (0, 0, 0)), dget conn e = some fi) →
        ∀ e, dget (registerface m (unregisterface m conn fi) fi) e = dget conn e) := by
  constructor
  · intro e he
    rw [dget_registerface, if_pos he]
  · intro h e
    rw [dget_registerface]
    by_cases he : e ∈ faceEdges (m.faces.getD fi (0, 0, 0))
    · rw [if_pos he, h e he]
    · rw [if_neg he, dget_unregisterface, if_neg he]

/-- Witness for C10 on a concrete mesh and connectivity map. -/
theorem register_unregister_roundtrip_witness :
    dget (registerface ⟨[], [(0, 1, 2)], [0], []⟩
            (unregisterface ⟨[], [(0, 1, 2)], [0], []⟩ [((0, 1), 0), ((1, 2), 0), ((2, 0), 0)] 0) 0)
          (1, 2)
      = dget [((0, 1), 0), ((1, 2), 0), ((2, 0), 0)] (1, 2) :=
  (register_unregister_roundtrip ⟨[], [(0, 1, 2)], [0], []⟩
      [((0, 1), 0), ((1, 2), 0), ((2, 0), 0)] 0 (by decide)).2 (by decide) (1, 2)

-- ---------------------------------------------------------------------------
-- interpretcutter (cut.py lines 248–256).

/-- A Python value passed as the `cutter` argument: a `(name, parameter)` tuple, a callable,
or anything else (the dynamic argument is modelled by this tagged sum). -/
inductive Cutter where
  | tup (name : String) (param : ℚ)
  | callableF (f : Vec3 → Vec3 → Vec3)
  | other

/-- Modelled from the spec: the four built-in offset policies (width, distance, depth,
angle). -/
def builtinPolicyNames : List String := ["width", "distance", "depth", "angle"]

/-- The names bound at module level in cut.py that begin with `cut_`: the four policy
functions and the three algorithm functions cut_line, cut_edge and cut_corner.  `globals()`
lookups of `'cut_'+name` in `interpretcutter` can only ever hit these. -/
def moduleCutGlobals : List String :=
  ["cut_width", "cut_distance", "cut_depth", "cut_angle", "cut_line", "cut_edge", "cut_corner"]

/-- The Python error raised by `interpretcutter`: a failed `globals()[...]` lookup
(KeyError) or the explicit TypeError of the final branch. -/
inductive PyErr where
  | keyError
  | typeError
deriving DecidableEq

/-- The successful result of `interpretcutter`: either the callable itself, or the closure
`lambda fn1,fn2: func(arg, fn1, fn2)` over the resolved module global `cut_<name>` and the
numeric parameter, kept symbolic here since only setup-time success or failure is at
issue. -/
inductive ResolvedCutter where
  | ofCallable (f : Vec3 → Vec3 → Vec3)
  | closure (name : String) (arg : ℚ)

/-- interpretcutter (cut.py lines 248–256): a tuple resolves `globals()['cut_'+name]`
(raising KeyError when no such module global exists), a callable is returned as is, and
anything else raises TypeError. -/
def interpretcutter : Cutter → Except PyErr ResolvedCutter
  | Cutter.tup name param =>
    if ("cut_" ++ name) ∈ moduleCutGlobals then
      Except.ok (ResolvedCutter.closure name param)
    else
      Except.error PyErr.keyError
  | Cutter.callableF f => Except.ok (ResolvedCutter.ofCallable f)
  | Cutter.other => Except.error PyErr.typeError

/-- Counterexample to C5: the tuple ('edge', 1) names no built-in cut policy, yet
`interpretcutter` accepts it at setup time, because `globals()['cut_edge']` resolves to the
module's cut_edge algorithm function; the resulting closure only fails later, when it is
first invoked. -/
theorem interpretcutter_nonpolicy_name_accepted :
    interpretcutter (Cutter.tup "edge" 1) = Except.ok (ResolvedCutter.closure "edge" 1)
    ∧ "edge" ∉ builtinPolicyNames := by
  constructor
  · rfl
  · decide

/-- C5 (amended): `interpretcutter` fails at setup time exactly for a value that is neither
a tuple nor a callable, or for a tuple whose name does not match any module global with the
`cut_` prefix; names of the non-policy module functions (line, edge, corner) are accepted at
setup and only fail when the returned closure is invoked. -/
theorem interpretcutter_error_characterization (c : Cutter) :
    (∃ e, interpretcutter c = Except.error e)
      ↔ (c = Cutter.other ∨ ∃ n p, c = Cutter.tup n p ∧ ("cut_" ++ n) ∉ moduleCutGlobals) := by
  cases c with
  | tup n p =>
    by_cases h : ("cut_" ++ n) ∈ moduleCutGlobals
    · simp [interpretcutter, h]
    · simp [interpretcutter, h]
  | callableF f => simp [interpretcutter]
  | other => simp [interpretcutter]

-- ---------------------------------------------------------------------------
-- The dead axis-split point of cut_edge (cut.py lines 375–378).

/-- A separator plane as produced by `separators`: `(origin, plane normal, axis
direction)`. -/
abbrev Plane := Vec3 × Vec3 × Vec3

/-- cut_edge lines 375–378: `p = None`, then two calls of `intersection_axis_face` whose
results are not assigned to anything — `p` therefore always stays None.  The two discarded
expressions are retained here verbatim. -/
def axisSplitPoint (s1 s2 : Option Plane) (fp : Vec3 × Vec3 × Vec3) : Option Vec3 :=
  let p : Option Vec3 := none
  let _ := s2.map (fun t => intersection_axis_face (t.1, t.2.2) fp)
  let _ := if s1.isSome && !s2.isSome then
             s1.map (fun t => intersection_axis_face (t.1, t.2.2) fp)
           else none
  p

/-- C3 (code bug): the axis-intersection point computed at cut_edge lines 377–378 is
discarded (never assigned to `p`), so the three-way split branch never fires — even on an
input where the separator's axis crosses the face strictly inside and farther than `prec`
from every vertex, as the concrete evaluation of `intersection_axis_face` here shows
(with `prec = 1/1000`, in squared form). -/
theorem cut_edge_axis_split_never_fires :
    (∀ (s1 s2 : Option Plane) (fp : Vec3 × Vec3 × Vec3), axisSplitPoint s1 s2 fp = none)
    ∧ intersection_axis_face (⟨1, 1, -1⟩, ⟨0, 0, 1⟩) (⟨0, 0, 0⟩, ⟨4, 0, 0⟩, ⟨0, 4, 0⟩)
        = some ⟨1, 1, 0⟩
    ∧ distSq ⟨1, 1, 0⟩ ⟨0, 0, 0⟩ > (1 / 1000 : ℚ) ^ 2
    ∧ distSq ⟨1, 1, 0⟩ ⟨4, 0, 0⟩ > (1 / 1000 : ℚ) ^ 2
    ∧ distSq ⟨1, 1, 0⟩ ⟨0, 4, 0⟩ > (1 / 1000 : ℚ) ^ 2 := by
  refine ⟨fun s1 s2 fp => rfl, ?_, ?_, ?_, ?_⟩
  · norm_num [intersection_axis_face, solveCols, dot, cross, vadd_def, vsub_def, vsmul_def]
  · norm_num [distSq, lengthSq, dot, vsub_def]
  · norm_num [distSq, lengthSq, dot, vsub_def]
  · norm_num [distSq, lengthSq, dot, vsub_def]

-- ---------------------------------------------------------------------------
-- separators (cut.py lines 258–302).

/-- The body of the separators loop (cut.py lines 267–282) at loop index `i`.  Two
normalizations of the source are omitted in this exact rational model: the source rescales
`d` to unit length before solving (which rescales the third row of the system and its
right-hand side by the same positive factor, leaving the solution unchanged, and rescales
the reported axis direction positively), and rescales the plane normal `n` positively; the
theorems below only compare whole separator planes produced by this same function, and the
counterexample distinguishes planes by their rational `intersect` origin, which the
normalizations do not affect.  The mesh tolerance `mesh.precision()` is passed explicitly
as `prec` (the accessor lives in mesh.py, outside src/), and `length(d) > prec` is rendered
in squared form. -/
def separatorAt (points : List Vec3) (line : List ℕ) (offsets : List Vec3) (prec : ℚ)
    (i : ℕ) : Option Plane :=
  let l := line.length - 1
  let n1 := offsets.getD ((i - 1) % l) vzero
  let n2 := offsets.getD (i % l) vzero
  let d := cross n1 n2
  if lengthSq d > prec ^ 2 then
    let p := points.getD (line.getD i 0) vzero
    let intersect := solveRows n1 n2 d (dot (p + n1) n1) (dot (p + n2) n2) (dot p d)
    let n := cross d (intersect - p)
    let n' := if dot n (points.getD (line.getD i 0) vzero
                        - points.getD (line.getD (i - 1) 0) vzero) > 0 then -n else n
    some (intersect, n', d)
  else
    none

/-- The raw separator list before the fill: the loop `for i in range(1, l if
line[0]!=line[-1] else l+1)` of cut.py lines 264–282. -/
def separatorsRaw (points : List Vec3) (prec : ℚ) (line : List ℕ) (offsets : List Vec3) :
    List (Option Plane) :=
  let l := line.length - 1
  let hi := if line.headD 0 ≠ line.getLastD 0 then l else l + 1
  (List.range' 1 (hi - 1)).map (separatorAt points line offsets prec)

/-- One sequential left-to-right fill step: `prev` is the value of the previous slot after
its own fill. -/
def fillFwdAux (prev : Option Plane) : List (Option Plane) → List (Option Plane)
  | [] => []
  | y :: ys =>
    let y2 := match y with
      | none => prev
      | some v => some v
    y2 :: fillFwdAux y2 ys

/-- The forward fill `for i in range(1,len(segments)): if not segments[i]: segments[i] =
segments[i-1]` of cut.py lines 297–298 (slot 0 is not touched). -/
def fillForward : List (Option Plane) → List (Option Plane)
  | [] => []
  | x :: xs => x :: fillFwdAux x xs

/-- The two fill passes of cut.py lines 296–300: forward, then backward; the backward pass
`for i in reversed(range(len(segments)-1)): if not segments[i]: segments[i] = segments[i+1]`
is the forward pass run on the reversed list. -/
def fillSeparators (xs : List (Option Plane)) : List (Option Plane) :=
  (fillForward (fillForward xs).reverse).reverse

/-- separators (cut.py lines 258–302): the raw per-vertex separator planes, then the two
fill passes completing the slots that could not be computed locally. -/
def separators (points : List Vec3) (prec : ℚ) (line : List ℕ) (offsets : List Vec3) :
    List (Option Plane) :=
  fillSeparators (separatorsRaw points prec line offsets)

/-- One step of keeping the last defined value. -/
def dstep (a y : Option Plane) : Option Plane :=
  match y with
  | none => a
  | some v => some v

/-- The last defined value of `prev :: xs`. -/
def lastDefined (prev : Option Plane) (xs : List (Option Plane)) : Option Plane :=
  xs.foldl dstep prev

/-- The first defined value of `xs`. -/
def firstDefined (xs : List (Option Plane)) : Option Plane :=
  xs.findSome? id

theorem length_fillFwdAux (prev : Option Plane) (xs : List (Option Plane)) :
    (fillFwdAux prev xs).length = xs.length := by
  induction xs generalizing prev with
  | nil => rfl
  | cons y ys ih => simp [fillFwdAux, ih]

theorem length_fillForward (xs : List (Option Plane)) :
    (fillForward xs).length = xs.length := by
  cases xs with
  | nil => rfl
  | cons x xs => simp [fillForward, length_fillFwdAux]

theorem fillFwdAux_getD (xs : List (Option Plane)) :
    ∀ (prev : Option Plane) (j : ℕ), j < xs.length →
      (fillFwdAux prev xs).getD j none = lastDefined prev (xs.take (j + 1)) := by
  induction xs with
  | nil => intro prev j hj; simp at hj
  | cons y ys ih =>
    intro prev j hj
    cases j with
    | zero => cases y <;> simp [fillFwdAux, lastDefined, dstep, List.foldl]
    | succ j' =>
      have hj' : j' < ys.length := by simpa using hj
      have := ih (dstep prev y) j' hj'
      cases y with
      | none => simpa [fillFwdAux, lastDefined, dstep, List.foldl] using this
      | some v => simpa [fillFwdAux, lastDefined, dstep, List.foldl] using this

theorem fillForward_getD (xs : List (Option Plane)) (j : ℕ) (hj : j < xs.length) :
    (fillForward xs).getD j none = lastDefined none (xs.take (j + 1)) := by
  cases xs with
  | nil => simp at hj
  | cons x xs =>
    cases j with
    | zero => cases x <;> simp [fillForward, lastDefined, dstep, List.foldl]
    | succ j' =>
      have hj' : j' < xs.length := by simpa using hj
      have := fillFwdAux_getD xs x j' hj'
      cases x with
      | none => simpa [fillForward, lastDefined, dstep, List.foldl] using this
      | some v => simpa [fillForward, lastDefined, dstep, List.foldl] using this

theorem lastDefined_reverse (m : List (Option Plane)) :
    lastDefined none m.reverse = firstDefined m := by
  induction m with
  | nil => rfl
  | cons a m ih =>
    have : lastDefined none (m.reverse ++ [a]) = dstep (lastDefined none m.reverse) a := by
      simp [lastDefined, List.foldl_append, List.foldl]
    cases a with
    | none => simp [List.reverse_cons, this, dstep, firstDefined, List.findSome?, ih]
    | some v => simp [List.reverse_cons, this, dstep, firstDefined, List.findSome?]

theorem firstDefined_fillFwdAux_drop (t : List (Option Plane)) :
    ∀ (prev : Option Plane) (m : ℕ), lastDefined prev (t.take m) = none →
      firstDefined ((fillFwdAux prev t).drop m) = firstDefined (t.drop m) := by
  induction t with
  | nil => intro prev m _; simp [fillFwdAux]
  | cons y r ih =>
    intro prev m h
    cases m with
    | zero =>
      have hprev : prev = none := by simpa [lastDefined] using h
      subst hprev
      cases y with
      | some v => simp [fillFwdAux, firstDefined, List.findSome?, dstep]
      | none =>
        simp only [fillFwdAux, List.drop_zero]
        simp only [firstDefined, List.findSome?, id]
        exact ih none 0 (by simp [lastDefined])
    | succ m' =>
      have h' : lastDefined (dstep prev y) (r.take m') = none := by
        simpa [lastDefined, List.foldl] using h
      cases y with
      | none => simpa [fillFwdAux, dstep] using ih prev m' (by simpa [dstep] using h')
      | some v => simpa [fillFwdAux, dstep] using ih (some v) m' (by simpa [dstep] using h')

theorem firstDefined_fillForward_drop (xs : List (Option Plane)) (m : ℕ)
    (h : lastDefined none (xs.take m) = none) :
    firstDefined ((fillForward xs).drop m) = firstDefined (xs.drop m) := by
  cases xs with
  | nil => simp [fillForward]
  | cons x xs =>
    cases m with
    | zero =>
      cases x with
      | some v => simp [fillForward, firstDefined, List.findSome?]
      | none =>
        simp only [fillForward, List.drop_zero]
        simp only [firstDefined, List.findSome?, id]
        exact firstDefined_fillFwdAux_drop xs none 0 (by simp [lastDefined])
    | succ m' =>
      have h' : lastDefined (dstep none x) (xs.take m') = none := by
        simpa [lastDefined, List.foldl] using h
      cases x with
      | none => simpa [fillForward, dstep] using
          firstDefined_fillFwdAux_drop xs none m' (by simpa [dstep] using h')
      | some v => simpa [fillForward, dstep] using
          firstDefined_fillFwdAux_drop xs (some v) m' (by simpa [dstep] using h')

theorem getD_reverse (L : List (Option Plane)) (k : ℕ) (hk : k < L.length) :
    L.reverse.getD k none = L.getD (L.length - 1 - k) none := by
  rw [List.getD_eq_getElem?_getD, List.getD_eq_getElem?_getD,
    List.getElem?_reverse (by simpa using hk)]

/-- Complete characterization of the two fill passes: slot `k` receives the last defined
plane at a position `≤ k`, or, if every position `≤ k` is undefined, the first defined
plane at a position `> k`. -/
theorem fillSeparators_getD (xs : List (Option Plane)) (k : ℕ) (hk : k < xs.length) :
    (fillSeparators xs).getD k none
      = match lastDefined none (xs.take (k + 1)) with
        | some v => some v
        | none => firstDefined (xs.drop (k + 1)) := by
  have hys : (fillForward xs).length = xs.length := length_fillForward xs
  have hlen2 : (fillForward (fillForward xs).reverse).length = xs.length := by
    rw [length_fillForward, List.length_reverse, hys]
  have hik : xs.length - 1 - k < (fillForward xs).reverse.length := by
    rw [List.length_reverse, hys]
    omega
  have step1 : (fillSeparators xs).getD k none
      = (fillForward (fillForward xs).reverse).getD (xs.length - 1 - k) none := by
    unfold fillSeparators
    rw [getD_reverse _ k (by omega), hlen2]
  have step2 : (fillForward (fillForward xs).reverse).getD (xs.length - 1 - k) none
      = lastDefined none ((fillForward xs).reverse.take (xs.length - 1 - k + 1)) :=
    fillForward_getD _ _ hik
  have harith : xs.length - 1 - k + 1 = xs.length - k := by omega
  have step3 : (fillForward xs).reverse.take (xs.length - k)
      = ((fillForward xs).drop k).reverse := by
    rw [List.take_reverse, hys, Nat.sub_sub_self (by omega)]
  have step4 : lastDefined none ((fillForward xs).drop k).reverse
      = firstDefined ((fillForward xs).drop k) := lastDefined_reverse _
  have hkys : k < (fillForward xs).length := by omega
  have step5 : (fillForward xs).drop k
      = (fillForward xs).getD k none :: (fillForward xs).drop (k + 1) := by
    rw [List.drop_eq_getElem_cons hkys, List.getD_eq_getElem?_getD,
      List.getElem?_eq_getElem hkys]
    rfl
  rw [step1, step2, harith, step3, step4, step5, fillForward_getD xs k hk]
  cases hval : lastDefined none (xs.take (k + 1)) with
  | some v => simp [firstDefined, List.findSome?]
  | none =>
    simp only [firstDefined, List.findSome?, id]
    exact firstDefined_fillForward_drop xs (k + 1) hval

theorem separatorsRaw_getD (points : List Vec3) (prec : ℚ) (line : List ℕ)
    (offsets : List Vec3) (j : ℕ) (hj : j < (separatorsRaw points prec line offsets).length) :
    (separatorsRaw points prec line offsets).getD j none
      = separatorAt points line offsets prec (j + 1) := by
  unfold separatorsRaw at hj ⊢
  rw [List.getD_eq_getElem?_getD, List.getElem?_map]
  have hl : j < (List.range' 1 ((if line.headD 0 ≠ line.getLastD 0 then line.length - 1
      else line.length - 1 + 1) - 1)).length := by simpa using hj
  rw [List.getElem?_eq_getElem hl]
  simp [List.getElem_range', Nat.add_comm]

/-- C2 (amended): a vertex whose two neighboring offset planes are parallel (squared cross
length at most the squared tolerance) gets an undefined raw separator slot; the two fill
passes then assign each slot the nearest *preceding* defined plane or, when every preceding
slot is undefined, the nearest *following* defined plane — so a lone undefined slot (for
example, a closed loop with a single degenerate vertex) still receives an adjacent, hence
nearest, defined neighbor's plane, but a run of several consecutive degenerate vertices is
filled entirely from the preceding side, which need not be the nearest defined neighbor. -/
theorem separators_degenerate_fill_amended :
    (∀ (points : List Vec3) (prec : ℚ) (line : List ℕ) (offsets : List Vec3),
        separators points prec line offsets
          = fillSeparators (separatorsRaw points prec line offsets))
    ∧ (∀ (points : List Vec3) (prec : ℚ) (line : List ℕ) (offsets : List Vec3) (j : ℕ),
        j < (separatorsRaw points prec line offsets).length →
        ¬ (lengthSq (cross (offsets.getD (j % (line.length - 1)) vzero)
                    (offsets.getD ((j + 1) % (line.length - 1)) vzero)) > prec ^ 2) →
        (separatorsRaw points prec line offsets).getD j none = none)
    ∧ (∀ (xs : List (Option Plane)) (k : ℕ), k < xs.length →
        (fillSeparators xs).getD k none
          = match lastDefined none (xs.take (k + 1)) with
            | some v => some v
            | none => firstDefined (xs.drop (k + 1))) := by
  refine ⟨fun _ _ _ _ => rfl, ?_, fillSeparators_getD⟩
  intro points prec line offsets j hj hdeg
  rw [separatorsRaw_getD points prec line offsets j hj]
  unfold separatorAt
  simp only [Nat.add_sub_cancel]
  rw [if_neg hdeg]

/-- Witness for C2 (amended) at a concrete degenerate input and a concrete one-hole fill. -/
theorem separators_degenerate_fill_amended_witness :
    (separatorsRaw [] 0 [0, 1, 2] []).getD 0 none = none
    ∧ (fillSeparators [some ((vzero, vzero, vzero) : Plane), none]).getD 1 none
        = some (vzero, vzero, vzero) := by
  constructor
  · exact separators_degenerate_fill_amended.2.1 [] 0 [0, 1, 2] [] 0
      (by simp [separatorsRaw])
      (by norm_num [lengthSq, dot, cross, vzero])
  · have h := separators_degenerate_fill_amended.2.2
      [some ((vzero, vzero, vzero) : Plane), none] 1 (by norm_num)
    rw [h]
    decide

/-- Counterexample to C2 as stated: on an open polyline with three consecutive parallel
offsets, the raw separators are `[some A, none, none, some B]`; the vertex behind raw slot 2
has its nearest defined neighbor at slot 3 (distance 1, holding plane B, versus distance 2
to slot 0), yet the fill assigns it plane A, propagated forward from slot 0 — the fill is
forward-from-the-previous-defined, not nearest-defined-neighbor. -/
theorem separators_nearest_fill_counterexample :
    lengthSq (cross (⟨0, 1, 0⟩ : Vec3) ⟨0, 1, 0⟩) ≤ (1 / 1000 : ℚ) ^ 2
    ∧ separatorsRaw [⟨0, 0, 0⟩, ⟨1, 0, 0⟩, ⟨2, 0, 0⟩, ⟨3, 0, 0⟩, ⟨4, 0, 0⟩, ⟨5, 0, 0⟩]
        (1 / 1000) [0, 1, 2, 3, 4, 5]
        [⟨1, 0, 0⟩, ⟨0, 1, 0⟩, ⟨0, 1, 0⟩, ⟨0, 1, 0⟩, ⟨1, 0, 0⟩]
        = [some ((⟨2, 1, 0⟩, ⟨-1, 1, 0⟩, ⟨0, 0, 1⟩) : Plane), none, none,
           some ((⟨5, 1, 0⟩, ⟨-1, 1, 0⟩, ⟨0, 0, -1⟩) : Plane)]
    ∧ (separators [⟨0, 0, 0⟩, ⟨1, 0, 0⟩, ⟨2, 0, 0⟩, ⟨3, 0, 0⟩, ⟨4, 0, 0⟩, ⟨5, 0, 0⟩]
        (1 / 1000) [0, 1, 2, 3, 4, 5]
        [⟨1, 0, 0⟩, ⟨0, 1, 0⟩, ⟨0, 1, 0⟩, ⟨0, 1, 0⟩, ⟨1, 0, 0⟩]).getD 2 none
        = some ((⟨2, 1, 0⟩, ⟨-1, 1, 0⟩, ⟨0, 0, 1⟩) : Plane)
    ∧ ((⟨2, 1, 0⟩, ⟨-1, 1, 0⟩, ⟨0, 0, 1⟩) : Plane) ≠ (⟨5, 1, 0⟩, ⟨-1, 1, 0⟩, ⟨0, 0, -1⟩) := by
  have hraw : separatorsRaw [⟨0, 0, 0⟩, ⟨1, 0, 0⟩, ⟨2, 0, 0⟩, ⟨3, 0, 0⟩, ⟨4, 0, 0⟩, ⟨5, 0, 0⟩]
      (1 / 1000) [0, 1, 2, 3, 4, 5]
      [⟨1, 0, 0⟩, ⟨0, 1, 0⟩, ⟨0, 1, 0⟩, ⟨0, 1, 0⟩, ⟨1, 0, 0⟩]
      = [some ((⟨2, 1, 0⟩, ⟨-1, 1, 0⟩, ⟨0, 0, 1⟩) : Plane), none, none,
         some ((⟨5, 1, 0⟩, ⟨-1, 1, 0⟩, ⟨0, 0, -1⟩) : Plane)] := by
    norm_num [separatorsRaw, separatorAt, solveRows, dot, cross, lengthSq, vzero,
      vadd_def, vsub_def, vsmul_def, vneg_def, List.range']
  refine ⟨by norm_num [lengthSq, dot, cross], hraw, ?_, by decide⟩
  show (fillSeparators _).getD 2 none = _
  rw [hraw]
  decide

-- ---------------------------------------------------------------------------
-- The propagation loop of cut_edge (cut.py lines 352–467).

/-- The fixed inputs of one cut_edge pass: the cutting plane (built at line 354 as
`(points[edge[0]] + offset, -normalize(offset))`, taken here as a given pair since the
theorems quantify over it), the two optional bounding separator planes and the tolerance. -/
structure CutParams where
  cutplane : Vec3 × Vec3
  s1 : Option Plane
  s2 : Option Plane
  prec : ℚ

/-- The mutable state of one cut_edge pass.  `removal` and `intersections` are the shared
removal set and the emitted intersection segments; in the source `removal` is a free
variable of cut_edge (the surrounding phase owns one shared set, compare the extra `removal`
argument passed at the call sites in `cut`), modelled here as a state component. -/
structure CutState where
  mesh : Mesh
  conn : Conn
  seen : Finset ℕ
  front : List Edge
  removal : Finset ℕ
  intersections : Finset Edge
deriving DecidableEq

/-- The good-side test of cut.py line 409: `dot(p - cutplane[0], cutplane[1]) > -prec`. -/
def goodsideB (P : CutParams) (p : Vec3) : Bool :=
  decide (dot (p - P.cutplane.1) P.cutplane.2 > -P.prec)

/-- The good-x test of cut.py lines 413–414: inside the separator-bounded span. -/
def goodxB (P : CutParams) (p : Vec3) : Bool :=
  (match P.s1 with
   | none => true
   | some t => decide (dot (p - t.1) (-t.2.1) ≥ -P.prec))
  && (match P.s2 with
      | none => true
      | some t => decide (dot (p - t.1) t.2.1 ≥ -P.prec))

/-- The s1 filter of cut.py line 435: both intersection points behind the s1 separator. -/
def sepFilter1 (P : CutParams) (cjm cj : Vec3) : Bool :=
  match P.s1 with
  | none => false
  | some t => decide (dot (cjm - t.1) (-t.2.1) < P.prec) && decide (dot (cj - t.1) (-t.2.1) < P.prec)

/-- The s2 filter of cut.py line 436. -/
def sepFilter2 (P : CutParams) (cjm cj : Vec3) : Bool :=
  match P.s2 with
  | none => false
  | some t => decide (dot (cjm - t.1) t.2.1 < P.prec) && decide (dot (cj - t.1) t.2.1 < P.prec)

/-- The near-duplicate test of cut.py line 424: `cut[j-1] and cut[j] and
distance(cut[j-1], cut[j]) < prec`, in squared form. -/
def nearB (a b : Option Vec3) (prec : ℚ) : Bool :=
  match a, b with
  | some u, some v => decide (distSq u v < prec ^ 2)
  | _, _ => false

/-- Python indexing `cut[j]` into the 3-slot cut list, `-3 ≤ j < 3`. -/
def cutAt (c : Option Vec3 × Option Vec3 × Option Vec3) (j : ℤ) : Option Vec3 :=
  match (j % 3).toNat with
  | 0 => c.1
  | 1 => c.2.1
  | _ => c.2.2

/-- `for j in range(3): front.append((f[j], f[j-1]))` (cut.py lines 371–372 and 464–465). -/
def pushFaceEdges (front : List Edge) (f : Face) : List Edge :=
  front ++ [(f.1, f.2.2), (f.2.1, f.1), (f.2.2, f.2.1)]

/-- The split performed when two cut points are found (cut.py lines 439–461): replace the
face slot, append the two remaining pieces, re-register all three, mark all three seen, and
record removal and the oriented intersection segment. -/
def performCut (P : CutParams) (s : CutState) (fi : ℕ) (f : Face) (j : ℤ)
    (cj cjm : Vec3) : CutState :=
  let rem1 := s.removal.erase fi
  let r1 := usepointat s.mesh cj P.prec
  let r2 := usepointat r1.2 cjm P.prec
  let p1 := r1.1
  let p2 := r2.1
  let m2 := r2.2
  let conn1 := unregisterface m2 s.conn fi
  let l := m2.faces.length
  let m3 : Mesh := { m2 with
    faces := (m2.faces.set fi (p1, fget f (j - 2), fget f (j - 1)))
      ++ [(p1, fget f (j - 1), p2), (p1, p2, fget f j)],
    tracks := m2.tracks ++ [m2.tracks.getD fi 0, m2.tracks.getD fi 0] }
  let conn2 := registerface m3 (registerface m3 (registerface m3 conn1 fi) l) (l + 1)
  let seen2 := insert fi (insert l (insert (l + 1) s.seen))
  if dot (m3.points.getD (fget f j) vzero - P.cutplane.1) P.cutplane.2 < 0 then
    { mesh := m3, conn := conn2, seen := seen2, front := s.front,
      removal := insert fi (insert l rem1),
      intersections := insert (p2, p1) s.intersections }
  else
    { mesh := m3, conn := conn2, seen := seen2, front := s.front,
      removal := insert (l + 1) rem1,
      intersections := insert (p1, p2) s.intersections }

/-- The three-way split around the axis-intersection point (cut.py lines 380–393); dead in
this snapshot because `axisSplitPoint` is always None, but retained faithfully. -/
def axisSplit (P : CutParams) (s : CutState) (frontedge : Edge) (fi : ℕ) (f : Face)
    (ppt : Vec3) : CutState :=
  let r := usepointat s.mesh ppt P.prec
  let pi := r.1
  let m1 := r.2
  let l := m1.faces.length
  let conn1 := unregisterface m1 s.conn fi
  let m2 : Mesh := { m1 with
    faces := (m1.faces.set fi (f.1, f.2.1, pi)) ++ [(f.2.1, f.2.2, pi), (f.2.2, f.1, pi)],
    tracks := m1.tracks ++ [m1.tracks.getD fi 0, m1.tracks.getD fi 0] }
  let conn2 := registerface m2 (registerface m2 (registerface m2 conn1 fi) l) (l + 1)
  { s with mesh := m2, conn := conn2, front := s.front ++ [frontedge] }

/-- The split-search loop `for j in range(3)` of cut.py lines 431–461: the first index with
two surviving cut points sets `cutted`; the two separator filters `continue`; otherwise the
split is performed and the loop breaks.  Returns the final `cutted` flag and the split
result, if any. -/
def cutScan (P : CutParams) (s : CutState) (fi : ℕ) (f : Face)
    (cuts : Option Vec3 × Option Vec3 × Option Vec3) :
    List ℤ → Bool → Bool × Option CutState
  | [], cutted => (cutted, none)
  | j :: js, cutted =>
    match cutAt cuts j, cutAt cuts (j - 1) with
    | some cj, some cjm =>
      if sepFilter1 P cjm cj then cutScan P s fi f cuts js true
      else if sepFilter2 P cjm cj then cutScan P s fi f cuts js true
      else (true, some (performCut P s fi f j cj cjm))
    | _, _ => cutScan P s fi f cuts js cutted

/-- The per-face processing of cut.py lines 394–465 (the else branch after the axis-split
test): mark seen, classify the three corners, compute and deduplicate the edge/plane cuts,
update the removal set, try the split, and push the three face edges when the face was cut
or still has a corner in the good area. -/
def processFace (P : CutParams) (s0 : CutState) (fi : ℕ) (f : Face) : CutState :=
  let sA : CutState := { s0 with seen := insert fi s0.seen }
  let pts := sA.mesh.points
  let gs0 := goodsideB P (pts.getD f.1 vzero)
  let gs1 := goodsideB P (pts.getD f.2.1 vzero)
  let gs2 := goodsideB P (pts.getD f.2.2 vzero)
  let gx0 := goodxB P (pts.getD f.1 vzero)
  let gx1 := goodxB P (pts.getD f.2.1 vzero)
  let gx2 := goodxB P (pts.getD f.2.2 vzero)
  if !(gs0 || gs1 || gs2) then sA
  else
    let c0 := intersection_edge_plane P.cutplane (pts.getD f.1 vzero, pts.getD f.2.1 vzero) P.prec
    let c1 := intersection_edge_plane P.cutplane (pts.getD f.2.1 vzero, pts.getD f.2.2 vzero) P.prec
    let c2 := intersection_edge_plane P.cutplane (pts.getD f.2.2 vzero, pts.getD f.1 vzero) P.prec
    let c0a := if nearB c2 c0 P.prec then none else c0
    let c1a := if nearB c0a c1 P.prec then none else c1
    let c2a := if nearB c1a c2 P.prec then none else c2
    let sB := if gs0 && gs1 && gs2 && (gx0 || gx1 || gx2) then
                { sA with removal := insert fi sA.removal }
              else sA
    match cutScan P sB fi f (c0a, c1a, c2a) [0, 1, 2] false with
    | (_, some s2) => { s2 with front := pushFaceEdges s2.front f }
    | (cutted, none) =>
      if cutted || (gs0 && gx0 || gs1 && gx1 || gs2 && gx2) then
        { sB with front := pushFaceEdges sB.front f }
      else sB

/-- One iteration of the `while front` loop of cut_edge (cut.py lines 359–465): pop the last
front edge, skip it when absent from the connectivity map or when its face was already seen,
propagate through degenerate slivers, test the (dead) axis-split branch, and otherwise
process the face. -/
def cutEdgeStep (P : CutParams) (s : CutState) : CutState :=
  match s.front.getLast? with
  | none => s
  | some frontedge =>
    let s0 : CutState := { s with front := s.front.dropLast }
    match dget s0.conn frontedge with
    | none => s0
    | some fi =>
      if fi ∈ s0.seen then s0
      else
        let f := s0.mesh.faces.getD fi (0, 0, 0)
        if faceheight_le s0.mesh fi P.prec then
          { s0 with seen := insert fi s0.seen, front := pushFaceEdges s0.front f }
        else
          match axisSplitPoint P.s1 P.s2 (facepoints s0.mesh fi) with
          | some ppt =>
            let fp := facepoints s0.mesh fi
            if decide (distSq ppt fp.1 > P.prec ^ 2) && decide (distSq ppt fp.2.1 > P.prec ^ 2)
                && decide (distSq ppt fp.2.2 > P.prec ^ 2) then
              axisSplit P s0 frontedge fi f ppt
            else processFace P s0 fi f
          | none => processFace P s0 fi f

/-- The `while front` loop of cut_edge, fuel-indexed: run `n` iterations or until the front
is exhausted. -/
def cutEdgeRun (P : CutParams) : ℕ → CutState → CutState
  | 0, s => s
  | n + 1, s => if s.front = [] then s else cutEdgeRun P n (cutEdgeStep P s)

theorem usepointat_faces (m : Mesh) (p : Vec3) (prec : ℚ) :
    (usepointat m p prec).2.faces = m.faces := by
  unfold usepointat
  cases m.points.findIdx? (fun q => decide (distSq q p ≤ prec ^ 2)) <;> rfl

theorem getD_set_append₂ (l : List Face) (i k : ℕ) (a b c : Face) (hk : k < l.length)
    (hne : k ≠ i) :
    ((l.set i a) ++ [b, c]).getD k (0, 0, 0) = l.getD k (0, 0, 0) := by
  rw [List.getD_eq_getElem?_getD, List.getD_eq_getElem?_getD,
    List.getElem?_append_left (by simpa using hk), List.getElem?_set_ne (Ne.symm hne)]

theorem performCut_pres (P : CutParams) (s : CutState) (fi : ℕ) (f : Face) (j : ℤ)
    (cj cjm : Vec3) (k : ℕ) (hk : k < s.mesh.faces.length) (hne : k ≠ fi) :
    (performCut P s fi f j cj cjm).mesh.faces.getD k (0, 0, 0)
        = s.mesh.faces.getD k (0, 0, 0)
    ∧ s.seen ⊆ (performCut P s fi f j cj cjm).seen
    ∧ s.mesh.faces.length ≤ (performCut P s fi f j cj cjm).mesh.faces.length := by
  have hfaces2 : (usepointat (usepointat s.mesh cj P.prec).2 cjm P.prec).2.faces
      = s.mesh.faces := by rw [usepointat_faces, usepointat_faces]
  have hsub : s.seen ⊆ insert fi (insert ((usepointat (usepointat s.mesh cj P.prec).2 cjm
      P.prec).2.faces.length) (insert ((usepointat (usepointat s.mesh cj P.prec).2 cjm
      P.prec).2.faces.length + 1) s.seen)) := by
    intro x hx
    simp [Finset.mem_insert, hx]
  unfold performCut
  dsimp only
  split
  · refine ⟨?_, hsub, ?_⟩
    · show ((_ ++ _ : List Face)).getD k (0, 0, 0) = _
      rw [show (usepointat (usepointat s.mesh cj P.prec).2 cjm P.prec).2.faces.set fi
            (( usepointat s.mesh cj P.prec).1, fget f (j - 2), fget f (j - 1))
          = s.mesh.faces.set fi ((usepointat s.mesh cj P.prec).1, fget f (j - 2),
            fget f (j - 1)) from by rw [hfaces2]]
      exact getD_set_append₂ s.mesh.faces fi k _ _ _ hk hne
    · show s.mesh.faces.length ≤ ((_ ++ _ : List Face)).length
      simp [hfaces2]
  · refine ⟨?_, hsub, ?_⟩
    · show ((_ ++ _ : List Face)).getD k (0, 0, 0) = _
      rw [show (usepointat (usepointat s.mesh cj P.prec).2 cjm P.prec).2.faces.set fi
            ((usepointat s.mesh cj P.prec).1, fget f (j - 2), fget f (j - 1))
          = s.mesh.faces.set fi ((usepointat s.mesh cj P.prec).1, fget f (j - 2),
            fget f (j - 1)) from by rw [hfaces2]]
      exact getD_set_append₂ s.mesh.faces fi k _ _ _ hk hne
    · show s.mesh.faces.length ≤ ((_ ++ _ : List Face)).length
      simp [hfaces2]

theorem axisSplit_pres (P : CutParams) (s : CutState) (fe : Edge) (fi : ℕ) (f : Face)
    (ppt : Vec3) (k : ℕ) (hk : k < s.mesh.faces.length) (hne : k ≠ fi) :
    (axisSplit P s fe fi f ppt).mesh.faces.getD k (0, 0, 0) = s.mesh.faces.getD k (0, 0, 0)
    ∧ s.seen ⊆ (axisSplit P s fe fi f ppt).seen
    ∧ s.mesh.faces.length ≤ (axisSplit P s fe fi f ppt).mesh.faces.length := by
  have hfaces1 : (usepointat s.mesh ppt P.prec).2.faces = s.mesh.faces := usepointat_faces ..
  unfold axisSplit
  dsimp only
  refine ⟨?_, fun x hx => hx, ?_⟩
  · rw [show (usepointat s.mesh ppt P.prec).2.faces.set fi (f.1, f.2.1,
        (usepointat s.mesh ppt P.prec).1)
      = s.mesh.faces.set fi (f.1, f.2.1, (usepointat s.mesh ppt P.prec).1) from by
        rw [hfaces1]]
    exact getD_set_append₂ s.mesh.faces fi k _ _ _ hk hne
  · simp [hfaces1]

theorem cutScan_pres (P : CutParams) (s : CutState) (fi : ℕ) (f : Face)
    (cuts : Option Vec3 × Option Vec3 × Option Vec3) (k : ℕ)
    (hk : k < s.mesh.faces.length) (hne : k ≠ fi) :
    ∀ (js : List ℤ) (cutted b : Bool) (t : CutState),
      cutScan P s fi f cuts js cutted = (b, some t) →
      t.mesh.faces.getD k (0, 0, 0) = s.mesh.faces.getD k (0, 0, 0)
      ∧ s.seen ⊆ t.seen
      ∧ s.mesh.faces.length ≤ t.mesh.faces.length := by
  intro js
  induction js with
  | nil => intro cutted b t h; simp [cutScan] at h
  | cons j js ih =>
    intro cutted b t h
    unfold cutScan at h
    cases h1 : cutAt cuts j with
    | none => rw [h1] at h; exact ih cutted b t h
    | some cj =>
      cases h2 : cutAt cuts (j - 1) with
      | none => rw [h1, h2] at h; exact ih cutted b t h
      | some cjm =>
        rw [h1, h2] at h
        dsimp only at h
        by_cases hf1 : sepFilter1 P cjm cj
        · rw [if_pos hf1] at h; exact ih true b t h
        · rw [if_neg hf1] at h
          by_cases hf2 : sepFilter2 P cjm cj
          · rw [if_pos hf2] at h; exact ih true b t h
          · rw [if_neg hf2] at h
            have ht : t = performCut P s fi f j cj cjm := by
              have := congrArg Prod.snd h
              simpa using this.symm
            rw [ht]
            exact performCut_pres P s fi f j cj cjm k hk hne

theorem processFace_pres (P : CutParams) (s0 : CutState) (fi : ℕ) (f : Face) (k : ℕ)
    (hk : k < s0.mesh.faces.length) (hne : k ≠ fi) :
    (processFace P s0 fi f).mesh.faces.getD k (0, 0, 0) = s0.mesh.faces.getD k (0, 0, 0)
    ∧ s0.seen ⊆ (processFace P s0 fi f).seen
    ∧ s0.mesh.faces.length ≤ (processFace P s0 fi f).mesh.faces.length := by
  unfold processFace
  dsimp only
  split
  · exact ⟨rfl, Finset.subset_insert _ _, le_refl _⟩
  · split
    · next b s2 heq =>
      split at heq
      · have h := cutScan_pres P
          { mesh := s0.mesh, conn := s0.conn, seen := insert fi s0.seen, front := s0.front,
            removal := insert fi s0.removal, intersections := s0.intersections }
          fi f _ k hk hne [0, 1, 2] false b s2 heq
        exact ⟨h.1, (Finset.subset_insert _ _).trans h.2.1, h.2.2⟩
      · have h := cutScan_pres P
          { mesh := s0.mesh, conn := s0.conn, seen := insert fi s0.seen, front := s0.front,
            removal := s0.removal, intersections := s0.intersections }
          fi f _ k hk hne [0, 1, 2] false b s2 heq
        exact ⟨h.1, (Finset.subset_insert _ _).trans h.2.1, h.2.2⟩
    · next cutted heq =>
      split
      · split
        · exact ⟨rfl, Finset.subset_insert _ _, le_refl _⟩
        · exact ⟨rfl, Finset.subset_insert _ _, le_refl _⟩
      · split
        · exact ⟨rfl, Finset.subset_insert _ _, le_refl _⟩
        · exact ⟨rfl, Finset.subset_insert _ _, le_refl _⟩

theorem cutEdgeStep_pres (P : CutParams) (s : CutState) (k : ℕ)
    (hk : k < s.mesh.faces.length) (hseen : k ∈ s.seen) :
    (cutEdgeStep P s).mesh.faces.getD k (0, 0, 0) = s.mesh.faces.getD k (0, 0, 0)
    ∧ k ∈ (cutEdgeStep P s).seen
    ∧ s.mesh.faces.length ≤ (cutEdgeStep P s).mesh.faces.length := by
  unfold cutEdgeStep
  dsimp only
  split
  · exact ⟨rfl, hseen, le_refl _⟩
  · next fe heq =>
    split
    · exact ⟨rfl, hseen, le_refl _⟩
    · next fi heq2 =>
      split
      · exact ⟨rfl, hseen, le_refl _⟩
      · next hfi =>
        have hne : k ≠ fi := fun h => hfi (h ▸ hseen)
        split
        · exact ⟨rfl, Finset.mem_insert_of_mem hseen, le_refl _⟩
        · split
          · next ppt heq3 =>
            split
            · have h := axisSplit_pres P
                { mesh := s.mesh, conn := s.conn, seen := s.seen,
                  front := s.front.dropLast, removal := s.removal,
                  intersections := s.intersections } fe fi
                (s.mesh.faces.getD fi (0, 0, 0)) ppt k hk hne
              exact ⟨h.1, h.2.1 hseen, h.2.2⟩
            · have h := processFace_pres P
                { mesh := s.mesh, conn := s.conn, seen := s.seen,
                  front := s.front.dropLast, removal := s.removal,
                  intersections := s.intersections } fi
                (s.mesh.faces.getD fi (0, 0, 0)) k hk hne
              exact ⟨h.1, h.2.1 hseen, h.2.2⟩
          · have h := processFace_pres P
              { mesh := s.mesh, conn := s.conn, seen := s.seen,
                front := s.front.dropLast, removal := s.removal,
                intersections := s.intersections } fi
              (s.mesh.faces.getD fi (0, 0, 0)) k hk hne
            exact ⟨h.1, h.2.1 hseen, h.2.2⟩

/-- C1: during a single cut_edge pass, a face is split at most once — once a face index has
been added to the seen set, no later front edge popped in the same pass splits or otherwise
modifies that face slot: after any number of further loop iterations its entry in the face
list is unchanged and it is still seen (guard `if fi in seen: continue`, cut.py line 365;
every splitting path first passes that guard, and new faces enter the seen set as soon as
they are produced by the two-point split). -/
theorem cut_edge_seen_face_stable (P : CutParams) (n : ℕ) (s : CutState) (fi : ℕ)
    (hseen : fi ∈ s.seen) (hlt : fi < s.mesh.faces.length) :
    (cutEdgeRun P n s).mesh.faces.getD fi (0, 0, 0) = s.mesh.faces.getD fi (0, 0, 0)
    ∧ fi ∈ (cutEdgeRun P n s).seen := by
  induction n generalizing s with
  | zero => exact ⟨rfl, hseen⟩
  | succ n ih =>
    unfold cutEdgeRun
    split
    · exact ⟨rfl, hseen⟩
    · have h := cutEdgeStep_pres P s fi hlt hseen
      have h2 := ih (cutEdgeStep P s) h.2.1 (lt_of_lt_of_le hlt h.2.2)
      exact ⟨h2.1.trans h.1, h2.2⟩

/-- Witness for C1 on a concrete run: a pass that pops an edge owned by an already-seen
face leaves that face untouched. -/
theorem cut_edge_seen_face_stable_witness :
    (cutEdgeRun ⟨(vzero, vzero), none, none, 0⟩ 3
        ⟨⟨[], [(0, 1, 2)], [0], []⟩, [((0, 1), 0)], {0}, [(0, 1)], ∅, ∅⟩).mesh.faces.getD 0
        (0, 0, 0)
      = (⟨⟨[], [(0, 1, 2)], [0], []⟩, [((0, 1), 0)], {0}, [(0, 1)], ∅, ∅⟩
          : CutState).mesh.faces.getD 0 (0, 0, 0)
    ∧ 0 ∈ (cutEdgeRun ⟨(vzero, vzero), none, none, 0⟩ 3
        ⟨⟨[], [(0, 1, 2)], [0], []⟩, [((0, 1), 0)], {0}, [(0, 1)], ∅, ∅⟩).seen :=
  cut_edge_seen_face_stable ⟨(vzero, vzero), none, none, 0⟩ 3
    ⟨⟨[], [(0, 1, 2)], [0], []⟩, [((0, 1), 0)], {0}, [(0, 1)], ∅, ∅⟩ 0
    (by decide) (by decide)

/-- C9: popping a directed edge that is absent from the connectivity map is a silent
propagation stop (guard `if frontedge not in conn: continue`, cut.py line 363, before any
lookup): the iteration removes the edge from the front and changes nothing else, raising no
error, and the flood fill continues with the remaining front. -/
theorem cut_edge_missing_edge_skips (P : CutParams) (s : CutState) (fe : Edge)
    (h1 : s.front.getLast? = some fe) (h2 : dget s.conn fe = none) :
    cutEdgeStep P s = { s with front := s.front.dropLast } := by
  unfold cutEdgeStep
  rw [h1]
  dsimp only
  rw [h2]

/-- Witness for C9 on a concrete state. -/
theorem cut_edge_missing_edge_skips_witness :
    cutEdgeStep ⟨(vzero, vzero), none, none, 0⟩ ⟨⟨[], [], [], []⟩, [], ∅, [(5, 7)], ∅, ∅⟩
      = { (⟨⟨[], [], [], []⟩, [], ∅, [(5, 7)], ∅, ∅⟩ : CutState) with
          front := List.dropLast [(5, 7)] } :=
  cut_edge_missing_edge_skips ⟨(vzero, vzero), none, none, 0⟩
    ⟨⟨[], [], [], []⟩, [], ∅, [(5, 7)], ∅, ∅⟩ (5, 7) (by decide) (by decide)

-- ---------------------------------------------------------------------------
-- The final simplification phase of cut_line (cut.py lines 329–350).

/-- removefaces (cut.py lines 632–641): keep the faces (and their parallel tracks) whose
index does not satisfy the criterion, compacting both arrays. -/
def removefaces (m : Mesh) (crit : ℕ → Bool) : Mesh :=
  { m with
    faces := (List.range m.faces.length).filterMap
      (fun i => if crit i then none else some (m.faces.getD i (0, 0, 0))),
    tracks := (List.range m.faces.length).filterMap
      (fun i => if crit i then none else some (m.tracks.getD i 0)) }

/-- Modelled from the spec: line_simplification of the Segment Simplifier (mesh.py, not in
src/) runs an epsilon-based point-merge over a group of intersection segments and returns a
reindexing dict; it is kept abstract as a function parameter
(points, segment group, tolerance) ↦ reindex dict, quantified over in the theorems. -/
abbrev LineSimp := List Vec3 → List Edge → ℚ → List (ℕ × ℕ)

/-- The per-group simplification loop of cut_line (cut.py lines 330–338): each group's
reindex dict rewrites its segments (dropping the collapsed ones with `c == d`) and is
merged into the shared merges dict. -/
def simplifyGroups (lineSimp : LineSimp) (points : List Vec3) (prec : ℚ)
    (result : List (List Edge)) : List (List Edge) × List (ℕ × ℕ) :=
  result.foldl
    (fun acc grp =>
      let reindex := lineSimp points grp prec
      let lines := grp.filterMap (fun ab =>
        let c := (dget reindex ab.1).getD ab.1
        let d := (dget reindex ab.2).getD ab.2
        if c ≠ d then some (c, d) else none)
      (acc.1 ++ [lines], dupdate acc.2 reindex))
    ([], [])

/-- `merges.get(x, x)`. -/
def mergeGet (d : List (ℕ × ℕ)) (x : ℕ) : ℕ := (dget d x).getD x

/-- The merge dict applied to the three corners of one face (cut.py lines 340–345). -/
def remapFace (d : List (ℕ × ℕ)) (f : Face) : Face :=
  (mergeGet d f.1, mergeGet d f.2.1, mergeGet d f.2.2)

/-- The mesh after the merge dict has been applied to every face of the face list
(cut.py lines 340–345). -/
def cutLineMerged (lineSimp : LineSimp) (m : Mesh) (result : List (List Edge))
    (prec : ℚ) : Mesh :=
  { m with faces := m.faces.map (remapFace (simplifyGroups lineSimp m.points prec result).2) }

/-- The removal criterion of cut.py line 348: `fi in removal or faceheight(mesh, fi) <=
prec`, evaluated against the merged mesh. -/
def cutLineCrit (lineSimp : LineSimp) (m : Mesh) (result : List (List Edge))
    (removal : Finset ℕ) (prec : ℚ) : ℕ → Bool :=
  fun fi => decide (fi ∈ removal)
    || faceheight_le (cutLineMerged lineSimp m result prec) fi prec

/-- The final simplification phase of cut_line (cut.py lines 329–350): simplify the
intersection groups, apply the merge dict to every face of the mesh, then delete the faces
of the removal set and the collapsed ones. -/
def cutLineFinish (lineSimp : LineSimp) (m : Mesh) (result : List (List Edge))
    (removal : Finset ℕ) (prec : ℚ) : Mesh × List (List Edge) :=
  (removefaces (cutLineMerged lineSimp m result prec)
      (cutLineCrit lineSimp m result removal prec),
   (simplifyGroups lineSimp m.points prec result).1)

theorem range'_filterMap_enumFrom {β : Type} (l : List β) (d : β) (c : ℕ → Bool) :
    ∀ s : ℕ, (List.range' s l.length).filterMap
        (fun i => if c i then none else some (l.getD (i - s) d))
      = ((l.enumFrom s).filter (fun p => !(c p.1))).map (fun p => p.2) := by
  induction l with
  | nil => intro s; rfl
  | cons b t ih =>
    intro s
    show (s :: List.range' (s + 1) t.length).filterMap _ = _
    rw [List.filterMap_cons]
    have htail : (List.range' (s + 1) t.length).filterMap
        (fun i => if c i then none else some ((b :: t).getD (i - s) d))
        = (List.range' (s + 1) t.length).filterMap
          (fun i => if c i then none else some (t.getD (i - (s + 1)) d)) := by
      apply List.filterMap_congr
      intro i hi
      have hs : s + 1 ≤ i := (List.mem_range'_1.mp hi).1
      have : (b :: t).getD (i - s) d = t.getD (i - (s + 1)) d := by
        have h1 : i - s = (i - (s + 1)) + 1 := by omega
        rw [h1]
        rfl
      rw [this]
    cases hc : c s with
    | true =>
      rw [htail, ih (s + 1)]
      simp [hc]
    | false =>
      rw [htail, ih (s + 1)]
      simp [hc, Nat.sub_self]

theorem range_filterMap_enum {β : Type} (l : List β) (d : β) (c : ℕ → Bool) :
    (List.range l.length).filterMap (fun i => if c i then none else some (l.getD i d))
      = (l.enum.filter (fun p => !(c p.1))).map (fun p => p.2) := by
  have h := range'_filterMap_enumFrom l d c 0
  rw [List.range_eq_range']
  simpa [List.enum] using h

/-- C6: in the final phase of cut_line, the point-merge dict accumulated from
line_simplification is applied to all three corners of every face of the face list, and a
face (with its parallel track) survives the compaction exactly when its index is neither in
the removal set nor of minimal height at most prec in the merged mesh. -/
theorem cut_line_final_phase_spec (lineSimp : LineSimp) (m : Mesh)
    (result : List (List Edge)) (removal : Finset ℕ) (prec : ℚ)
    (htr : m.tracks.length = m.faces.length) :
    (cutLineFinish lineSimp m result removal prec).1.faces
      = (((m.faces.map (remapFace (simplifyGroups lineSimp m.points prec result).2)).enum.filter
          (fun p => !(cutLineCrit lineSimp m result removal prec p.1))).map (fun p => p.2))
    ∧ (cutLineFinish lineSimp m result removal prec).1.tracks
      = ((m.tracks.enum.filter
          (fun p => !(cutLineCrit lineSimp m result removal prec p.1))).map (fun p => p.2)) := by
  constructor
  · show (removefaces (cutLineMerged lineSimp m result prec) _).faces = _
    unfold removefaces
    exact range_filterMap_enum (m.faces.map
      (remapFace (simplifyGroups lineSimp m.points prec result).2)) (0, 0, 0)
      (cutLineCrit lineSimp m result removal prec)
  · show (removefaces (cutLineMerged lineSimp m result prec) _).tracks = _
    unfold removefaces
    dsimp only
    have hlen : (cutLineMerged lineSimp m result prec).faces.length = m.tracks.length := by
      simp [cutLineMerged, htr]
    rw [show (cutLineMerged lineSimp m result prec).tracks = m.tracks from rfl, hlen]
    exact range_filterMap_enum m.tracks 0 (cutLineCrit lineSimp m result removal prec)

/-- Witness for C6: a concrete two-face mesh where the removal set covers both faces. -/
theorem cut_line_final_phase_spec_witness :
    (cutLineFinish (fun _ _ _ => []) ⟨[], [(0, 1, 2), (1, 2, 3)], [0, 0], []⟩ [] {0, 1}
        0).1.faces
      = ((([(0, 1, 2), (1, 2, 3)].map
            (remapFace (simplifyGroups (fun _ _ _ => []) [] 0 []).2)).enum.filter
          (fun p => !(cutLineCrit (fun _ _ _ => []) ⟨[], [(0, 1, 2), (1, 2, 3)], [0, 0], []⟩
            [] {0, 1} 0 p.1))).map (fun p => p.2)) :=
  (cut_line_final_phase_spec (fun _ _ _ => []) ⟨[], [(0, 1, 2), (1, 2, 3)], [0, 0], []⟩ []
    {0, 1} 0 (by decide)).1

end Madcad
